import Mathlib

/-!
Formal model of the gox typed code-construction engine (CodeBuilder):
the operand stack, scope/block lifecycle, literal construction, member
access, assignment, call/operator dispatch, generic inference glue and
statement termination, as implemented in codebuild.go and
typesinfer_go123.go.  Helpers that live in the repository outside the
given sources (internal.Stack, boundElementType, AssignableTo,
assignMatchType, toFuncCall) are modelled from the specification and
carry a doc comment saying so.
-/

namespace Gox

/-- Go types relevant to the engine (go/types handles), reified as a tagged
variant: Basic, untyped-constant kinds, the empty interface, Map, Slice,
Array, Struct, Named (with method set and underlying type), Signature,
Tuple, Pointer, and the engine-private reference type used for assignment
targets (refType). -/
inductive Ty where
  | basicT (name : String)
  | untypedT (name : String)
  | emptyInterfaceT
  | mapT (key elem : Ty)
  | sliceT (elem : Ty)
  | arrayT (elem : Ty) (len : Int)
  | structT (fields : List (String × Ty))
  | namedT (name : String) (methods : List (String × Ty)) (underlying : Ty)
  | signatureT (hasRecv : Bool) (params results : List Ty) (variadic : Bool)
  | tupleT (elems : List Ty)
  | pointerT (elem : Ty)
  | refT (elem : Ty)

/-- Structural equality test on types (go/types type identity). -/
def Ty.beq : Ty → Ty → Bool
  | .basicT a, .basicT b => a == b
  | .untypedT a, .untypedT b => a == b
  | .emptyInterfaceT, .emptyInterfaceT => true
  | .mapT k1 e1, .mapT k2 e2 => k1.beq k2 && e1.beq e2
  | .sliceT e1, .sliceT e2 => e1.beq e2
  | .arrayT e1 n1, .arrayT e2 n2 => e1.beq e2 && n1 == n2
  | .structT f1, .structT f2 => beqFields f1 f2
  | .namedT n1 m1 u1, .namedT n2 m2 u2 => n1 == n2 && beqFields m1 m2 && u1.beq u2
  | .signatureT r1 p1 q1 v1, .signatureT r2 p2 q2 v2 =>
      r1 == r2 && beqList p1 p2 && beqList q1 q2 && v1 == v2
  | .tupleT l1, .tupleT l2 => beqList l1 l2
  | .pointerT e1, .pointerT e2 => e1.beq e2
  | .refT e1, .refT e2 => e1.beq e2
  | _, _ => false
where
  beqList : List Ty → List Ty → Bool
    | [], [] => true
    | a :: as, b :: bs => a.beq b && beqList as bs
    | _, _ => false
  beqFields : List (String × Ty) → List (String × Ty) → Bool
    | [], [] => true
    | (n1, t1) :: as, (n2, t2) :: bs => n1 == n2 && t1.beq t2 && beqFields as bs
    | _, _ => false

instance : BEq Ty := ⟨Ty.beq⟩

/-- Syntax-tree expressions (go/ast nodes) as far as the engine builds them. -/
inductive Expr where
  | ident (name : String)
  | underscoreE
  | selector (x : Expr) (sel : String)
  | compositeLit (t : Ty) (elts : List Expr)
  | keyValue (key val : Expr)
  | callE (fn : Expr) (args : List Expr) (ellipsis : Bool)

/-- Syntax-tree statements appended to the current block. -/
inductive Stmt where
  | assign (lhs rhs : List Expr)
  | exprStmt (x : Expr)
  | returnStmt (results : List Expr)
  | declStmt (name : String)

/-- internal.Elem: one operand, a syntax value together with its type; the
type is nil (none) for the discard target pushed by VarRef(nil). -/
structure Elem where
  val : Expr
  typ : Option Ty

namespace Stack

/-- Modelled from the spec: operand stack push (internal.Stack.Push). -/
def push (s : List Elem) (e : Elem) : List Elem := s ++ [e]

/-- Modelled from the spec: internal.Stack.GetArgs, the top n operands in
original order; fails with StackUnderflow if n exceeds the depth. -/
def getArgs (s : List Elem) (n : Nat) : Except String (List Elem) :=
  if n ≤ s.length then .ok (s.drop (s.length - n)) else .error "stack underflow"

/-- Modelled from the spec: internal.Stack.Get with a negative index -n,
the n-th operand from the top. -/
def get (s : List Elem) (n : Nat) : Except String Elem :=
  if 1 ≤ n ∧ n ≤ s.length then
    match s.get? (s.length - n) with
    | some e => .ok e
    | none => .error "stack underflow"
  else .error "stack underflow"

/-- Modelled from the spec: internal.Stack.Ret, pop n operands and push one
result (the universal consume-arity/produce-one primitive). -/
def ret (s : List Elem) (n : Nat) (e : Elem) : List Elem :=
  s.take (s.length - n) ++ [e]

/-- Modelled from the spec: internal.Stack.PopN. -/
def popN (s : List Elem) (n : Nat) : List Elem :=
  s.take (s.length - n)

/-- Modelled from the spec: internal.Stack.SetLen, truncation used by block
exit. -/
def setLen (s : List Elem) (n : Nat) : List Elem := s.take n

end Stack

/-- A lexical scope: its own name/type entries chained to a parent scope
(go/types Scope). -/
inductive Scope where
  | mk (parent : Option Scope) (entries : List (String × Ty))

def Scope.parentOf : Scope → Option Scope
  | .mk p _ => p

def Scope.entries : Scope → List (String × Ty)
  | .mk _ es => es

/-- types.Scope.Lookup: search this scope only (not the parent chain). -/
def Scope.lookup (s : Scope) (name : String) : Option Ty :=
  s.entries.lookup name

/-- types.Scope.Insert: add the object unless an object with the same name
is already present in this scope. -/
def Scope.insert (s : Scope) (name : String) (t : Ty) : Scope :=
  match s with
  | .mk p es => if (es.lookup name).isSome then .mk p es else .mk p (es ++ [(name, t)])

/-- A declared variable (types.Var): name and type; the name may be empty
for anonymous parameters and results. -/
structure GoVar where
  name : String
  typ : Ty

/-- A function signature (types.Signature): parameter and result variables
plus the variadic flag. -/
structure Signature where
  params : List GoVar
  results : List GoVar
  variadic : Bool

/-- A function symbol (gox Func wrapping types.Func). -/
structure Func where
  name : String
  sig : Signature

/-- codeBlockCtx: the scope opened for the block, the operand-stack depth
recorded at entry, and the statements accumulated so far. -/
structure codeBlockCtx where
  scope : Scope
  base : Nat
  stmts : List Stmt

/-- funcBodyCtx: a codeBlockCtx plus the enclosing function. -/
structure funcBodyCtx where
  blk : codeBlockCtx
  fn : Option Func

/-- The Package fields the engine reads: the operator-name prefix and the
builtin scope supplying operator callables. -/
structure Package where
  prefixOperator : String
  builtin : Scope

/-- CodeBuilder: operand stack, current function-body context, package. -/
structure CodeBuilder where
  stk : List Elem
  current : funcBodyCtx
  pkg : Package

/-- Modelled from the spec: the Oracle default-typing rule (types.Default):
an untyped constant type maps to its concrete default; every other type is
its own default. -/
def defaultType : Ty → Ty
  | .untypedT "int" => .basicT "int"
  | .untypedT "rune" => .basicT "rune"
  | .untypedT "float" => .basicT "float64"
  | .untypedT "complex" => .basicT "complex128"
  | .untypedT "bool" => .basicT "bool"
  | .untypedT "string" => .basicT "string"
  | t => t

/-- Modelled from the spec: the Oracle assignability test (gox AssignableTo):
identical types are assignable, everything is assignable to the empty
interface, and an untyped constant is assignable to its default type. -/
def AssignableTo (src dst : Ty) : Bool :=
  src == dst || dst == Ty.emptyInterfaceT ||
    (match src with
     | .untypedT _ => defaultType src == dst
     | _ => false)

/-- Assignability for an operand type that may be nil. -/
def assignableOpt (src : Option Ty) (dst : Ty) : Bool :=
  match src with
  | some s => AssignableTo s dst
  | none => false

/-- Modelled from the spec: assignMatchType (repo code outside src/): a
discard target (nil type, from VarRef(nil)) accepts anything; otherwise the
source must be assignable to the target's referenced type. -/
def assignMatchType (target src : Option Ty) : Bool :=
  match target with
  | none => true
  | some t =>
      let dst := match t with | .refT u => u | u => u
      assignableOpt src dst

/-- The numeric tower position of an untyped constant kind, used when mixed
untyped constants must be joined. -/
def untypedRank : String → Option Nat
  | "int" => some 0
  | "rune" => some 1
  | "float" => some 2
  | "complex" => some 3
  | _ => none

/-- Join of two untyped constant kinds: equal kinds join to themselves,
numeric kinds join to the wider one, anything else is incompatible. -/
def joinUntyped2 (a b : String) : Option String :=
  if a == b then some a
  else match untypedRank a, untypedRank b with
    | some ra, some rb => if ra ≤ rb then some b else some a
    | _, _ => none

/-- Join of the untyped constant kinds of a list of operands; none if any
operand is not an untyped constant or the kinds are incompatible. -/
def untypedJoin : List Elem → Option String
  | [] => none
  | [e] => match e.typ with
           | some (.untypedT u) => some u
           | _ => none
  | e :: rest =>
      match e.typ, untypedJoin rest with
      | some (.untypedT u), some v => joinUntyped2 u v
      | _, _ => none

/-- Modelled from the spec: boundElementType (repo code outside src/), the
bound type across the selected operands: when all operand types are
identical that type is the bound; when they differ but all are untyped
constants the Oracle join applies; otherwise the inference fails with
MismatchedElementTypes.  Index selection (base/step of the source call
sites) is expressed by passing the already-selected operands. -/
def boundElementType (elems : List Elem) : Except String Ty :=
  match elems.head? with
  | none => .error "TODO: MismatchedElementTypes"
  | some e0 =>
    match e0.typ with
    | none => .error "TODO: MismatchedElementTypes"
    | some t0 =>
      if elems.all (fun e => e.typ == some t0) then .ok t0
      else match untypedJoin elems with
        | some u => .ok (.untypedT u)
        | none => .error "TODO: MismatchedElementTypes"

/-- The operands at even positions (keys of a map literal). -/
def evenElems : List α → List α
  | [] => []
  | [a] => [a]
  | a :: _ :: rest => a :: evenElems rest

/-- The operands at odd positions (values of a map literal). -/
def oddElems : List α → List α
  | [] => []
  | [_] => []
  | _ :: b :: rest => b :: oddElems rest

/-- The operand type of a call with the given result types: no value for
zero results, the single result type for one, a Tuple for more. -/
def retType : List Ty → Option Ty
  | [] => none
  | [t] => some t
  | ts => some (.tupleT ts)

/-- Exact parameter/argument matching for a non-variadic call. -/
def matchFuncArgs : List Ty → List Elem → Bool
  | [], [] => true
  | t :: ts, a :: as => assignableOpt a.typ t && matchFuncArgs ts as
  | _, _ => false

/-- Parameter/argument matching for a variadic call without an explicit
spread: fixed parameters match exactly, the rest flow into the trailing
slice parameter. -/
def matchVariadic : List Ty → List Elem → Bool
  | [.sliceT e], args => args.all (fun a => assignableOpt a.typ e)
  | t :: rest, a :: argsRest => assignableOpt a.typ t && matchVariadic rest argsRest
  | _, _ => false

/-- Modelled from the spec: toFuncCall (repo code outside src/): validates
that the callee operand is callable and the arguments are assignable to its
parameters (including variadic expansion), producing one call operand typed
by the callee's results. -/
def toFuncCall (fn : Elem) (args : List Elem) (ellipsis : Bool) : Except String Elem :=
  match fn.typ with
  | some (.signatureT _ params results variadic) =>
    if variadic && !ellipsis then
      if matchVariadic params args then
        .ok ⟨.callE fn.val (args.map Elem.val) ellipsis, retType results⟩
      else .error "TODO: argument mismatch"
    else if matchFuncArgs params args then
      .ok ⟨.callE fn.val (args.map Elem.val) ellipsis, retType results⟩
    else .error "TODO: argument mismatch"
  | _ => .error "TODO: call of non-function"

/-- TyEmptyInterface of the source. -/
def TyEmptyInterface : Ty := .emptyInterfaceT

/-- The element type of a composite type (types Slice/Array/Map/Pointer Elem). -/
def Ty.elemOf : Ty → Ty
  | .sliceT e => e
  | .arrayT e _ => e
  | .mapT _ e => e
  | .pointerT e => e
  | t => t

/-- The key type of a map type (types.Map.Key). -/
def Ty.keyOf : Ty → Ty
  | .mapT k _ => k
  | _ => .emptyInterfaceT

/-- The declared length of an array type (types.Array.Len). -/
def Ty.lenOf : Ty → Int
  | .arrayT _ n => n
  | _ => 0

/-- CodeBuilder.startBlockStmt: a child scope of the current one, the stack
depth recorded as base, an empty statement list; returns the previous block
context for the caller to restore. -/
def CodeBuilder.startBlockStmt (p : CodeBuilder) (comment : String) : CodeBuilder × codeBlockCtx :=
  let scope := Scope.mk (some p.current.blk.scope) []
  ({ p with current := { p.current with
       blk := { scope := scope, base := p.stk.length, stmts := [] } } },
   p.current.blk)

/-- CodeBuilder.endBlockStmt: return the accumulated statements, truncate
the operand stack to the recorded base, restore the saved block context. -/
def CodeBuilder.endBlockStmt (p : CodeBuilder) (old : codeBlockCtx) : CodeBuilder × List Stmt :=
  let stmts := p.current.blk.stmts
  ({ p with stk := Stack.setLen p.stk p.current.blk.base,
            current := { p.current with blk := old } }, stmts)

/-- insertParams: insert every parameter with a non-empty name into the
scope; anonymous parameters are skipped. -/
def insertParams (scope : Scope) (params : List GoVar) : Scope :=
  params.foldl (fun sc v => if v.name != "" then sc.insert v.name v.typ else sc) scope

/-- CodeBuilder.startFuncBody: set the current function, open its body
block, and insert the declared parameters and results into the new scope. -/
def CodeBuilder.startFuncBody (p : CodeBuilder) (fn : Func) : CodeBuilder × funcBodyCtx :=
  let oldFn := p.current.fn
  let p1 : CodeBuilder := { p with current := { p.current with fn := some fn } }
  let pr := p1.startBlockStmt ("func " ++ fn.name)
  let p2 := pr.1
  let scope2 := insertParams (insertParams p2.current.blk.scope fn.sig.params) fn.sig.results
  ({ p2 with current := { p2.current with blk := { p2.current.blk with scope := scope2 } } },
   { blk := pr.2, fn := oldFn })

/-- CodeBuilder.endFuncBody: restore the saved function and exit its block. -/
def CodeBuilder.endFuncBody (p : CodeBuilder) (old : funcBodyCtx) : CodeBuilder × List Stmt :=
  let p1 : CodeBuilder := { p with current := { p.current with fn := old.fn } }
  p1.endBlockStmt old.blk

/-- CodeBuilder.VarRef: push a reference operand; VarRef(nil) pushes the
discard target (underscore) whose type is nil. -/
def CodeBuilder.VarRef (p : CodeBuilder) (ref : Option GoVar) : CodeBuilder :=
  match ref with
  | none => { p with stk := Stack.push p.stk ⟨.underscoreE, none⟩ }
  | some v => { p with stk := Stack.push p.stk ⟨.ident v.name, some (.refT v.typ)⟩ }

/-- Assignability check of the key/value operand pairs of a map literal
against an explicit key and value type. -/
def mapLitCheck : List Elem → Ty → Ty → Bool
  | [], _, _ => true
  | [_], _, _ => true
  | k :: v :: rest, key, val =>
      assignableOpt k.typ key && assignableOpt v.typ val && mapLitCheck rest key val

/-- The key:value elements of a map composite literal. -/
def mapElts : List Elem → List Expr
  | k :: v :: rest => .keyValue k.val v.val :: mapElts rest
  | _ => []

/-- CodeBuilder.MapLit: build a map composite literal from arity operands
(key/value pairs); with no explicit type and arity 0 the default type is
map[string]interface{}, otherwise key and value types are inferred as
bound types and default-typed. -/
def CodeBuilder.MapLit (p : CodeBuilder) (t : Option Ty) (arity : Nat) : Except String CodeBuilder :=
  if arity = 0 then
    let mt := t.getD (Ty.mapT (.basicT "string") TyEmptyInterface)
    .ok { p with stk := Stack.push p.stk ⟨.compositeLit mt [], some mt⟩ }
  else if arity % 2 ≠ 0 then .error "TODO: MapLit - invalid arity"
  else match Stack.getArgs p.stk arity with
    | .error e => .error e
    | .ok args =>
      match t with
      | some mt =>
          if mapLitCheck args mt.keyOf mt.elemOf then
            .ok { p with stk := Stack.ret p.stk arity ⟨.compositeLit mt (mapElts args), some mt⟩ }
          else .error "TODO: MapLit - cannot assign"
      | none =>
          match boundElementType (evenElems args), boundElementType (oddElems args) with
          | .ok key, .ok val =>
              let mt := Ty.mapT (defaultType key) (defaultType val)
              .ok { p with stk := Stack.ret p.stk arity ⟨.compositeLit mt (mapElts args), some mt⟩ }
          | .error e, _ => .error e
          | .ok _, .error e => .error e

/-- CodeBuilder.SliceLit: build a slice composite literal from arity
operands; with no explicit type and arity 0 the default type is
[]interface{}, otherwise the element type is inferred as the bound type and
default-typed; with an explicit type every operand must be assignable to
its element type. -/
def CodeBuilder.SliceLit (p : CodeBuilder) (t : Option Ty) (arity : Nat) (keyVal : Bool) : Except String CodeBuilder :=
  if keyVal then .error "TODO: SliceLit in keyVal mode"
  else if arity = 0 then
    let st := t.getD (Ty.sliceT TyEmptyInterface)
    .ok { p with stk := Stack.push p.stk ⟨.compositeLit st [], some st⟩ }
  else match Stack.getArgs p.stk arity with
    | .error e => .error e
    | .ok args =>
      match t with
      | some st =>
          if args.all (fun a => assignableOpt a.typ st.elemOf) then
            .ok { p with stk := Stack.ret p.stk arity ⟨.compositeLit st (args.map Elem.val), some st⟩ }
          else .error "TODO: SliceLit - cannot assign"
      | none =>
          match boundElementType args with
          | .ok val =>
              let st := Ty.sliceT (defaultType val)
              .ok { p with stk := Stack.ret p.stk arity ⟨.compositeLit st (args.map Elem.val), some st⟩ }
          | .error e => .error e

/-- CodeBuilder.ArrayLit: build an array composite literal from arity
operands; the arity must not exceed a declared non-negative length and
every operand must be assignable to the element type. -/
def CodeBuilder.ArrayLit (p : CodeBuilder) (t : Ty) (arity : Nat) (keyVal : Bool) : Except String CodeBuilder :=
  if keyVal then .error "TODO: ArrayLit in keyVal mode"
  else if 0 ≤ t.lenOf ∧ t.lenOf < (arity : Int) then .error "TODO: array index out of bounds"
  else match Stack.getArgs p.stk arity with
    | .error e => .error e
    | .ok args =>
      if args.all (fun a => assignableOpt a.typ t.elemOf) then
        .ok { p with stk := Stack.ret p.stk arity ⟨.compositeLit t (args.map Elem.val), some t⟩ }
      else .error "TODO: ArrayLit - cannot assign"

/-- First method of the given name in a method set (the search loop of
MemberVal over Named.Method). -/
def lookupMethod : List (String × Ty) → String → Option Ty
  | [], _ => none
  | (n, t) :: ms, name => if n == name then some t else lookupMethod ms name

/-- structFieldType: first struct field of the given name. -/
def structFieldType : List (String × Ty) → String → Option Ty
  | [], _ => none
  | (n, t) :: fs, name => if n == name then some t else structFieldType fs name

/-- methodTypeOf: a method's type as seen through a selector, its signature
with the receiver parameter stripped. -/
def methodTypeOf : Ty → Except String Ty
  | .signatureT _ params results variadic => .ok (.signatureT false params results variadic)
  | _ => .error "TODO: methodTypeOf"

/-- indirect: strip exactly one level of pointer indirection. -/
def indirect : Ty → Ty
  | .pointerT t => t
  | t => t

/-- CodeBuilder.fieldVal: replace the receiver operand by a field-selector
operand typed as the field's declared type, or fail with member-not-found. -/
def CodeBuilder.fieldVal (p : CodeBuilder) (x : Expr) (struc : List (String × Ty)) (name : String) : Except String CodeBuilder :=
  match structFieldType struc name with
  | some t => .ok { p with stk := Stack.ret p.stk 1 ⟨.selector x name, some t⟩ }
  | none => .error ("TODO: member not found - " ++ name)

/-- CodeBuilder.MemberVal: resolve a member of the top operand; on a Named
receiver (after one pointer indirection) methods are searched before the
underlying struct's fields, and a found method produces an operand typed as
its signature stripped of the receiver. -/
def CodeBuilder.MemberVal (p : CodeBuilder) (name : String) : Except String CodeBuilder :=
  match Stack.get p.stk 1 with
  | .error e => .error e
  | .ok arg =>
    match arg.typ with
    | none => .error "TODO: MemberVal - unexpected type"
    | some t =>
      match indirect t with
      | .namedT _ methods underlying =>
        match lookupMethod methods name with
        | some mty =>
          match methodTypeOf mty with
          | .ok t2 => .ok { p with stk := Stack.ret p.stk 1 ⟨.selector arg.val name, some t2⟩ }
          | .error e => .error e
        | none =>
          match underlying with
          | .structT fields => p.fieldVal arg.val fields name
          | _ => .error ("TODO: member not found - " ++ name)
      | .structT fields => p.fieldVal arg.val fields name
      | _ => .error "TODO: MemberVal - unexpected type"

/-- Pairwise target/source validation of a parallel assignment. -/
def parallelAssignCheck : List Elem → List Elem → Bool
  | [], [] => true
  | t :: ts, s :: ss => assignMatchType t.typ s.typ && parallelAssignCheck ts ss
  | _, _ => false

/-- Target validation against the element types of a tuple-typed source. -/
def tupleAssignCheck : List Elem → List Ty → Bool
  | [], [] => true
  | t :: ts, s :: ss => assignMatchType t.typ (some s) && tupleAssignCheck ts ss
  | _, _ => false

/-- CodeBuilder.Assign: consume lhs targets and rhs sources (rhs defaults
to lhs); a parallel assignment validates pairwise, a single tuple-typed
source of arity lhs spreads over the targets, and any other combination is
an arity mismatch.  One assignment statement is appended. -/
def CodeBuilder.Assign (p : CodeBuilder) (lhs : Nat) (v : Option Nat) : Except String CodeBuilder :=
  let rhs := v.getD lhs
  match Stack.getArgs p.stk (lhs + rhs) with
  | .error e => .error e
  | .ok args =>
    if lhs = rhs then
      if parallelAssignCheck (args.take lhs) (args.drop lhs) then
        let stmt := Stmt.assign ((args.take lhs).map Elem.val) ((args.drop lhs).map Elem.val)
        .ok { p with stk := Stack.popN p.stk (lhs + rhs),
                     current := { p.current with blk := { p.current.blk with
                       stmts := p.current.blk.stmts ++ [stmt] } } }
      else .error "TODO: cannot assign"
    else if rhs = 1 then
      match args.get? lhs with
      | some src =>
        match src.typ with
        | some (.tupleT ts) =>
          if lhs = ts.length then
            if tupleAssignCheck (args.take lhs) ts then
              let stmt := Stmt.assign ((args.take lhs).map Elem.val) [src.val]
              .ok { p with stk := Stack.popN p.stk (lhs + rhs),
                           current := { p.current with blk := { p.current.blk with
                             stmts := p.current.blk.stmts ++ [stmt] } } }
            else .error "TODO: cannot assign"
          else .error "TODO: unmatch assignment"
        | _ => .error "TODO: unmatch assignment"
      | none => .error "stack underflow"
    else .error "TODO: unmatch assignment"

/-- CodeBuilder.Call: consume n argument operands plus the callee operand
beneath them and produce one operand typed by the callee's results. -/
def CodeBuilder.Call (p : CodeBuilder) (n : Nat) (ellipsis : Bool) : Except String CodeBuilder :=
  match Stack.getArgs p.stk n with
  | .error e => .error e
  | .ok args =>
    match Stack.get p.stk (n + 1) with
    | .error e => .error e
    | .ok fn =>
      match toFuncCall fn args ellipsis with
      | .error e => .error e
      | .ok ret => .ok { p with stk := Stack.ret p.stk (n + 1) ret }

/-- Tokens of the operators the engine dispatches. -/
inductive Token where
  | add | sub | mul | quo | rem
  | and | or | xor | andNot | shl | shr
  | lss | leq | gtr | geq | eql | neq
  deriving DecidableEq

/-- binaryOps: the fixed operator-name table for binary operators. -/
def binaryOps : Token → String
  | .add => "Add"
  | .sub => "Sub"
  | .mul => "Mul"
  | .quo => "Quo"
  | .rem => "Rem"
  | .and => "And"
  | .or => "Or"
  | .xor => "Xor"
  | .andNot => "AndNot"
  | .shl => "Lsh"
  | .shr => "Rsh"
  | .lss => "LT"
  | .leq => "LE"
  | .gtr => "GT"
  | .geq => "GE"
  | .eql => "EQ"
  | .neq => "NE"

/-- unaryOps: the fixed operator-name table for unary operators; tokens
outside the table map to the empty name (empty entries of the Go array). -/
def unaryOps : Token → String
  | .sub => "Neg"
  | .xor => "Not"
  | _ => ""

/-- CodeBuilder.BinaryOp: look the operator callable up in the builtin
scope and reuse the call path on the top two operands. -/
def CodeBuilder.BinaryOp (p : CodeBuilder) (op : Token) : Except String CodeBuilder :=
  match Stack.getArgs p.stk 2 with
  | .error e => .error e
  | .ok args =>
    let name := p.pkg.prefixOperator ++ binaryOps op
    match p.pkg.builtin.lookup name with
    | none => .error "TODO: operator not matched"
    | some fnTy =>
      match toFuncCall ⟨.ident name, some fnTy⟩ args false with
      | .error e => .error e
      | .ok ret => .ok { p with stk := Stack.ret p.stk 2 ret }

/-- CodeBuilder.UnaryOp: look the operator callable up in the builtin scope
and reuse the call path on the top operand. -/
def CodeBuilder.UnaryOp (p : CodeBuilder) (op : Token) : Except String CodeBuilder :=
  match Stack.getArgs p.stk 1 with
  | .error e => .error e
  | .ok args =>
    let name := p.pkg.prefixOperator ++ unaryOps op
    match p.pkg.builtin.lookup name with
    | none => .error "TODO: operator not matched"
    | some fnTy =>
      match toFuncCall ⟨.ident name, some fnTy⟩ args false with
      | .error e => .error e
      | .ok ret => .ok { p with stk := Stack.ret p.stk 1 ret }

/-- CodeBuilder.Defer: explicitly unsupported, fails unconditionally. -/
def CodeBuilder.Defer (p : CodeBuilder) : Except String CodeBuilder :=
  .error "CodeBuilder.Defer"

/-- CodeBuilder.Go: explicitly unsupported, fails unconditionally. -/
def CodeBuilder.Go (p : CodeBuilder) : Except String CodeBuilder :=
  .error "CodeBuilder.Go"

/-- CodeBuilder.EndStmt: with no operand above the block base do nothing;
with exactly one, pop it and append an expression statement; with more,
fail. -/
def CodeBuilder.EndStmt (p : CodeBuilder) : Except String CodeBuilder :=
  let n : Int := (p.stk.length : Int) - (p.current.blk.base : Int)
  if 0 < n then
    if n ≠ 1 then .error "syntax error: unexpected newline, expecting := or = or comma"
    else match p.stk.getLast? with
      | some e =>
          .ok { p with stk := p.stk.dropLast,
                       current := { p.current with blk := { p.current.blk with
                         stmts := p.current.blk.stmts ++ [Stmt.exprStmt e.val] } } }
      | none => .error "stack underflow"
  else .ok p

/-- errorDesc of typesinfer_go123.go: one diagnostic produced by the
type-checking oracle during inference. -/
structure errorDesc where
  msg : String

/-- The error code seeded into the inference error container. -/
def CannotInferTypeArgs : Nat := 138

/-- The outcome of the external oracle call checker_infer123 (a go:linkname
into go/types): the inferred type arguments and the diagnostics it left in
the error container. -/
structure InferOutcome where
  inferred : List Ty
  desc : List errorDesc

/-- checker_infer: run the oracle's inference and propagate its first
diagnostic message verbatim as the error; no diagnostic means no error. -/
def checker_infer (outcome : InferOutcome) : List Ty × Option String :=
  let result := outcome.inferred
  match outcome.desc with
  | [] => (result, none)
  | d :: _ => (result, some d.msg)

/-- First variable of the given name in a parameter/result list; mirrors
the first-wins semantics of scope insertion. -/
def firstVar : List GoVar → String → Option Ty
  | [], _ => none
  | v :: vs, name => if v.name == name then some v.typ else firstVar vs name

/-- The arity of a Tuple-typed operand type, none for any other type. -/
def tupleArity : Option Ty → Option Nat
  | some (.tupleT ts) => some ts.length
  | _ => none

/-- A small package fixture: the Gop_ operator prefix and a builtin scope
with an integer negation operator, used to instantiate the theorems on
concrete inputs. -/
def testPkg : Package :=
  { prefixOperator := "Gop_",
    builtin := Scope.mk none
      [("Gop_Neg", Ty.signatureT false [Ty.basicT "int"] [Ty.basicT "int"] false)] }

/-- A code builder over the fixture package with a given operand stack, an
empty root scope and base 0. -/
def testCB (stk : List Elem) : CodeBuilder :=
  { stk := stk,
    current := { blk := { scope := Scope.mk none [], base := 0, stmts := [] }, fn := none },
    pkg := testPkg }

/-- Arbitrary in-block activity: a sequence of operand pushes and
statements appended to the current block. -/
def blockActivity (q : CodeBuilder) (extra : List Elem) (acc : List Stmt) : CodeBuilder :=
  { q with stk := extra.foldl Stack.push q.stk,
           current := { q.current with blk := { q.current.blk with
             stmts := q.current.blk.stmts ++ acc } } }

/-- Fixture: a builder with one integer operand on the stack. -/
def negInCB : CodeBuilder := testCB [⟨.ident "x", some (.basicT "int")⟩]

/-- Fixture: the builder after dispatching integer negation. -/
def negOutCB : CodeBuilder :=
  testCB [⟨.callE (.ident "Gop_Neg") [.ident "x"] false, some (.basicT "int")⟩]

/-- Fixture: a builder with two operands dangling above the block base. -/
def pairCB : CodeBuilder :=
  testCB [⟨.ident "x", some (.basicT "int")⟩, ⟨.ident "y", some (.basicT "int")⟩]

/-- Fixture: the builder after EndStmt consumed the single dangling operand. -/
def endOneCB : CodeBuilder :=
  { stk := [],
    current := { blk := { scope := Scope.mk none [], base := 0,
                          stmts := [Stmt.exprStmt (.ident "x")] }, fn := none },
    pkg := testPkg }

/-- Fixture: an inference outcome carrying one diagnostic. -/
def inferFailOutcome : InferOutcome :=
  { inferred := [], desc := [⟨"cannot infer T1"⟩] }

/-- Fixture: a Named type with both a method N and an underlying struct
field N of a different type. -/
def recvTy : Ty :=
  .namedT "T" [("N", .signatureT true [] [.basicT "int"] false)]
    (.structT [("N", .basicT "string")])

/-- Fixture: a builder whose top operand is a pointer to the Named
receiver type. -/
def memberInCB : CodeBuilder := testCB [⟨.ident "v", some (.pointerT recvTy)⟩]

/-- Fixture: the builder after member resolution bound the method. -/
def memberOutCB : CodeBuilder :=
  testCB [⟨.selector (.ident "v") "N", some (.signatureT false [] [.basicT "int"] false)⟩]

/-- Fixture: two reference targets below a tuple-typed call result, the
operand layout of a tuple-spread assignment a, b = f(). -/
def tupleSpreadStk : List Elem :=
  [⟨.ident "a", some (.refT (.basicT "int"))⟩,
   ⟨.ident "b", some (.refT (.basicT "string"))⟩,
   ⟨.callE (.ident "f") [] false, some (.tupleT [.basicT "int", .basicT "string"])⟩]

/-- Fixture: two reference targets below a single-valued call result, the
operand layout of the failing tuple-spread a, b = g(). -/
def singleSpreadStk : List Elem :=
  [⟨.ident "a", some (.refT (.basicT "int"))⟩,
   ⟨.ident "b", some (.refT (.basicT "string"))⟩,
   ⟨.callE (.ident "g") [] false, some (.basicT "int")⟩]

/-- Fixture: the builder after the tuple-spread assignment emitted its
statement and consumed the three operands. -/
def assignOutCB : CodeBuilder :=
  { stk := [],
    current := { blk := { scope := Scope.mk none [], base := 0,
                          stmts := [Stmt.assign [.ident "a", .ident "b"]
                                      [.callE (.ident "f") [] false]] }, fn := none },
    pkg := testPkg }

/-- Fixture: three operands of identical type int. -/
def sliceIntStk : List Elem :=
  [⟨.ident "i", some (.basicT "int")⟩, ⟨.ident "j", some (.basicT "int")⟩,
   ⟨.ident "k", some (.basicT "int")⟩]

/-- Fixture: untyped int, untyped float and untyped int constants. -/
def sliceMixStk : List Elem :=
  [⟨.ident "a", some (.untypedT "int")⟩, ⟨.ident "b", some (.untypedT "float")⟩,
   ⟨.ident "c", some (.untypedT "int")⟩]

/-- Fixture: an int operand and a string operand, incompatible as slice
elements. -/
def sliceBadStk : List Elem :=
  [⟨.ident "a", some (.basicT "int")⟩, ⟨.ident "b", some (.basicT "string")⟩]

end Gox

namespace Gox

theorem getArgs_le {s : List Elem} {n : Nat} {args : List Elem}
    (h : Stack.getArgs s n = .ok args) : n ≤ s.length := by
  unfold Stack.getArgs at h
  split at h
  · assumption
  · exact Except.noConfusion h

theorem getArgs_drop {s : List Elem} {n : Nat} {args : List Elem}
    (h : Stack.getArgs s n = .ok args) : args = s.drop (s.length - n) := by
  unfold Stack.getArgs at h
  split at h
  · exact (Except.ok.inj h).symm
  · exact Except.noConfusion h

theorem getArgs_length {s : List Elem} {n : Nat} {args : List Elem}
    (h : Stack.getArgs s n = .ok args) : args.length = n := by
  have h1 := getArgs_le h
  have h2 := getArgs_drop h
  subst h2
  simp [List.length_drop]
  omega

theorem get_le {s : List Elem} {n : Nat} {e : Elem} (h : Stack.get s n = .ok e) :
    1 ≤ n ∧ n ≤ s.length := by
  unfold Stack.get at h
  split at h
  case isTrue hc => exact hc
  case isFalse => exact Except.noConfusion h

theorem ret_length (s : List Elem) (n : Nat) (e : Elem) (h : n ≤ s.length) :
    (Stack.ret s n e).length = s.length - n + 1 := by
  simp [Stack.ret, List.length_append, List.length_take]

theorem popN_length (s : List Elem) (n : Nat) :
    (Stack.popN s n).length = s.length - n := by
  simp [Stack.popN, List.length_take]

theorem push_length (s : List Elem) (e : Elem) :
    (Stack.push s e).length = s.length + 1 := by
  simp [Stack.push]

theorem Call_stk_length {p p' : CodeBuilder} {n : Nat} {ell : Bool}
    (h : p.Call n ell = .ok p') :
    (p'.stk.length : Int) = (p.stk.length : Int) - (n + 1) + 1 := by
  unfold CodeBuilder.Call at h
  split at h
  · exact Except.noConfusion h
  next args hargs =>
    split at h
    · exact Except.noConfusion h
    next fn hfn =>
      split at h
      · exact Except.noConfusion h
      next ret hret =>
        have hle := (get_le hfn).2
        cases h
        rw [ret_length _ _ _ hle]
        omega

theorem fieldVal_stk_length {p p' : CodeBuilder} {x : Expr} {struc : List (String × Ty)} {name : String}
    (hle : 1 ≤ p.stk.length) (h : p.fieldVal x struc name = .ok p') :
    (p'.stk.length : Int) = (p.stk.length : Int) - 1 + 1 := by
  unfold CodeBuilder.fieldVal at h
  split at h
  next t ht =>
    cases h
    rw [ret_length _ _ _ hle]
    omega
  next => exact Except.noConfusion h

theorem MemberVal_stk_length {p p' : CodeBuilder} {name : String}
    (h : p.MemberVal name = .ok p') :
    (p'.stk.length : Int) = (p.stk.length : Int) - 1 + 1 := by
  unfold CodeBuilder.MemberVal at h
  split at h
  · exact Except.noConfusion h
  next arg harg =>
    have hle := (get_le harg).2
    repeat' split at h
    all_goals first
      | exact Except.noConfusion h
      | exact fieldVal_stk_length hle h
      | (cases h; rw [ret_length _ _ _ hle]; omega)

theorem Assign_stk_length {p p' : CodeBuilder} {lhs : Nat} {v : Option Nat}
    (h : p.Assign lhs v = .ok p') :
    (p'.stk.length : Int) = (p.stk.length : Int) - (lhs + v.getD lhs) := by
  simp only [CodeBuilder.Assign] at h
  split at h
  · exact Except.noConfusion h
  next args hargs =>
    have hle := getArgs_le hargs
    repeat' split at h
    all_goals first
      | exact Except.noConfusion h
      | (cases h; rw [popN_length]; omega)

theorem MapLit_stk_length {p p' : CodeBuilder} {t : Option Ty} {arity : Nat}
    (h : p.MapLit t arity = .ok p') :
    (p'.stk.length : Int) = (p.stk.length : Int) - arity + 1 := by
  simp only [CodeBuilder.MapLit] at h
  repeat' split at h
  all_goals first
    | exact Except.noConfusion h
    | (cases h; rw [push_length]; omega)
    | (cases h; have hle := @getArgs_le p.stk _ _ (by assumption); rw [ret_length _ _ _ hle]; omega)

theorem SliceLit_stk_length {p p' : CodeBuilder} {t : Option Ty} {arity : Nat} {kv : Bool}
    (h : p.SliceLit t arity kv = .ok p') :
    (p'.stk.length : Int) = (p.stk.length : Int) - arity + 1 := by
  simp only [CodeBuilder.SliceLit] at h
  repeat' split at h
  all_goals first
    | exact Except.noConfusion h
    | (cases h; rw [push_length]; omega)
    | (cases h; have hle := @getArgs_le p.stk _ _ (by assumption); rw [ret_length _ _ _ hle]; omega)

theorem ArrayLit_stk_length {p p' : CodeBuilder} {t : Ty} {arity : Nat} {kv : Bool}
    (h : p.ArrayLit t arity kv = .ok p') :
    (p'.stk.length : Int) = (p.stk.length : Int) - arity + 1 := by
  simp only [CodeBuilder.ArrayLit] at h
  repeat' split at h
  all_goals first
    | exact Except.noConfusion h
    | (cases h; have hle := @getArgs_le p.stk _ _ (by assumption); rw [ret_length _ _ _ hle]; omega)

theorem BinaryOp_stk_length {p p' : CodeBuilder} {op : Token}
    (h : p.BinaryOp op = .ok p') :
    (p'.stk.length : Int) = (p.stk.length : Int) - 2 + 1 := by
  simp only [CodeBuilder.BinaryOp] at h
  repeat' split at h
  all_goals first
    | exact Except.noConfusion h
    | (cases h; have hle := @getArgs_le p.stk _ _ (by assumption); rw [ret_length _ _ _ hle]; omega)

theorem UnaryOp_stk_length {p p' : CodeBuilder} {op : Token}
    (h : p.UnaryOp op = .ok p') :
    (p'.stk.length : Int) = (p.stk.length : Int) - 1 + 1 := by
  simp only [CodeBuilder.UnaryOp] at h
  repeat' split at h
  all_goals first
    | exact Except.noConfusion h
    | (cases h; have hle := @getArgs_le p.stk _ _ (by assumption); rw [ret_length _ _ _ hle]; omega)

/-- C1: for every construction operation, the operand-stack depth after the
operation equals the depth before minus the operation's consume-arity plus
its produce-arity, for all valid (successful) inputs: Call(n) consumes the
n arguments plus the callee and produces one operand; BinaryOp consumes 2
and produces 1; UnaryOp consumes 1 and produces 1; Assign(lhs, rhs)
consumes lhs+rhs and produces 0; MapLit/SliceLit/ArrayLit with arity n
consume n and produce 1; MemberVal consumes 1 and produces 1. -/
theorem C1_stack_arity_law :
    (∀ (p p' : CodeBuilder) (n : Nat) (ell : Bool), p.Call n ell = .ok p' →
       (p'.stk.length : Int) = (p.stk.length : Int) - (n + 1) + 1) ∧
    (∀ (p p' : CodeBuilder) (op : Token), p.BinaryOp op = .ok p' →
       (p'.stk.length : Int) = (p.stk.length : Int) - 2 + 1) ∧
    (∀ (p p' : CodeBuilder) (op : Token), p.UnaryOp op = .ok p' →
       (p'.stk.length : Int) = (p.stk.length : Int) - 1 + 1) ∧
    (∀ (p p' : CodeBuilder) (lhs : Nat) (v : Option Nat), p.Assign lhs v = .ok p' →
       (p'.stk.length : Int) = (p.stk.length : Int) - (lhs + v.getD lhs)) ∧
    (∀ (p p' : CodeBuilder) (t : Option Ty) (n : Nat), p.MapLit t n = .ok p' →
       (p'.stk.length : Int) = (p.stk.length : Int) - n + 1) ∧
    (∀ (p p' : CodeBuilder) (t : Option Ty) (n : Nat) (kv : Bool), p.SliceLit t n kv = .ok p' →
       (p'.stk.length : Int) = (p.stk.length : Int) - n + 1) ∧
    (∀ (p p' : CodeBuilder) (t : Ty) (n : Nat) (kv : Bool), p.ArrayLit t n kv = .ok p' →
       (p'.stk.length : Int) = (p.stk.length : Int) - n + 1) ∧
    (∀ (p p' : CodeBuilder) (name : String), p.MemberVal name = .ok p' →
       (p'.stk.length : Int) = (p.stk.length : Int) - 1 + 1) :=
  ⟨fun _ _ _ _ h => Call_stk_length h,
   fun _ _ _ h => BinaryOp_stk_length h,
   fun _ _ _ h => UnaryOp_stk_length h,
   fun _ _ _ _ h => Assign_stk_length h,
   fun _ _ _ _ h => MapLit_stk_length h,
   fun _ _ _ _ _ h => SliceLit_stk_length h,
   fun _ _ _ _ _ h => ArrayLit_stk_length h,
   fun _ _ _ h => MemberVal_stk_length h⟩

/-- Witness for C1: dispatching unary negation on a one-operand stack
succeeds and the arity law instantiates to depth 1 = 1 - 1 + 1. -/
theorem C1_stack_arity_law_witness :
    negInCB.UnaryOp .sub = .ok negOutCB ∧
    (negOutCB.stk.length : Int) = (negInCB.stk.length : Int) - 1 + 1 :=
  ⟨rfl, C1_stack_arity_law.2.2.1 negInCB negOutCB .sub rfl⟩

theorem foldl_push (s : List Elem) (extra : List Elem) :
    extra.foldl Stack.push s = s ++ extra := by
  induction extra generalizing s with
  | nil => simp
  | cons e es ih => simp [Stack.push, ih]

/-- C2: for every matched startBlockStmt/endBlockStmt pair and every
sequence of pushes performed in between (together with any statements
accumulated in the block), the operand stack after the exit is exactly the
stack at entry (so its depth equals the depth recorded at entry regardless
of dangling operands), the previously saved block context and function are
restored, and the statements accumulated inside the block are returned. -/
theorem C2_block_truncation (p : CodeBuilder) (comment : String)
    (extra : List Elem) (acc : List Stmt) :
    ((blockActivity (p.startBlockStmt comment).1 extra acc).endBlockStmt
        (p.startBlockStmt comment).2).1.stk = p.stk ∧
    ((blockActivity (p.startBlockStmt comment).1 extra acc).endBlockStmt
        (p.startBlockStmt comment).2).1.stk.length = p.stk.length ∧
    ((blockActivity (p.startBlockStmt comment).1 extra acc).endBlockStmt
        (p.startBlockStmt comment).2).1.current = p.current ∧
    ((blockActivity (p.startBlockStmt comment).1 extra acc).endBlockStmt
        (p.startBlockStmt comment).2).2 = acc := by
  simp [blockActivity, CodeBuilder.startBlockStmt, CodeBuilder.endBlockStmt, Stack.setLen,
        foldl_push, List.take_left]

/-- C8: Defer and Go fail immediately and unconditionally in every engine
state: each returns its error outright, so neither is ever silently
ignored, emits a statement, or modifies the operand stack. -/
theorem C8_defer_go_unsupported (p : CodeBuilder) :
    p.Defer = .error "CodeBuilder.Defer" ∧ p.Go = .error "CodeBuilder.Go" :=
  ⟨rfl, rfl⟩

/-- C7: checker_infer returns the oracle's solved type-argument list; the
reported error is exactly the first oracle diagnostic message, verbatim,
and is absent exactly when the oracle produced no diagnostic. -/
theorem C7_infer_error_propagation (oc : InferOutcome) :
    (checker_infer oc).1 = oc.inferred ∧
    ((checker_infer oc).2 = none ↔ oc.desc = []) ∧
    (∀ d rest, oc.desc = d :: rest → (checker_infer oc).2 = some d.msg) := by
  unfold checker_infer
  rcases hd : oc.desc with _ | ⟨d, rest⟩ <;> simp [hd]

/-- Witness for C7: an outcome with one diagnostic propagates exactly that
message, and the inferred list is still returned. -/
theorem C7_infer_error_propagation_witness :
    (checker_infer inferFailOutcome).2 = some "cannot infer T1" ∧
    (checker_infer inferFailOutcome).1 = [] :=
  ⟨(C7_infer_error_propagation inferFailOutcome).2.2 ⟨"cannot infer T1"⟩ [] rfl,
   (C7_infer_error_propagation inferFailOutcome).1⟩

/-- C10: EndStmt inspects the number of operands above the current block's
recorded base: zero leaves the builder unchanged; exactly one pops that
operand and appends one expression statement wrapping its value; two or
more fails without consuming any operand or appending any statement. -/
theorem C10_end_stmt (p : CodeBuilder) :
    (p.stk.length = p.current.blk.base → p.EndStmt = .ok p) ∧
    (∀ e, p.stk.length = p.current.blk.base + 1 → p.stk.getLast? = some e →
       p.EndStmt = .ok { p with
         stk := p.stk.dropLast,
         current := { p.current with blk := { p.current.blk with
           stmts := p.current.blk.stmts ++ [Stmt.exprStmt e.val] } } }) ∧
    (p.current.blk.base + 2 ≤ p.stk.length →
       p.EndStmt = .error "syntax error: unexpected newline, expecting := or = or comma") := by
  refine ⟨fun h => ?_, fun e h hl => ?_, fun h => ?_⟩
  · simp only [CodeBuilder.EndStmt]
    rw [if_neg (by omega)]
  · simp only [CodeBuilder.EndStmt]
    rw [if_pos (by omega), if_neg (by omega), hl]
  · simp only [CodeBuilder.EndStmt]
    rw [if_pos (by omega), if_pos (by omega)]

/-- Witness for C10: the three cases instantiated on concrete stacks with
zero, one and two dangling operands. -/
theorem C10_end_stmt_witness :
    (testCB []).EndStmt = .ok (testCB []) ∧
    negInCB.EndStmt = .ok endOneCB ∧
    pairCB.EndStmt = .error "syntax error: unexpected newline, expecting := or = or comma" := by
  refine ⟨(C10_end_stmt (testCB [])).1 rfl, ?_, (C10_end_stmt pairCB).2.2 (by decide)⟩
  have h := (C10_end_stmt negInCB).2.1 ⟨.ident "x", some (.basicT "int")⟩ rfl rfl
  exact h.trans (by rfl)

/-- C3: when the receiver's type, after stripping at most one level of
pointer indirection, is a Named type that has both a method called name
and an underlying struct field called name, MemberVal resolves to the
method: it produces an operand typed as the method's signature stripped of
its receiver parameter (not as the field's type), because methods are
searched before struct fields. -/
theorem C3_member_precedence (p : CodeBuilder) (name : String) (arg : Elem)
    (t : Ty) (nm : String) (methods fields : List (String × Ty))
    (hr : Bool) (ps rs : List Ty) (vd : Bool) (ft : Ty)
    (hget : Stack.get p.stk 1 = .ok arg)
    (htyp : arg.typ = some t)
    (hind : indirect t = .namedT nm methods (.structT fields))
    (hm : lookupMethod methods name = some (.signatureT hr ps rs vd))
    (hf : structFieldType fields name = some ft) :
    p.MemberVal name =
      .ok { p with
            stk := Stack.ret p.stk 1
              ⟨.selector arg.val name, some (.signatureT false ps rs vd)⟩ } := by
  unfold CodeBuilder.MemberVal
  simp only [hget, htyp, hind, hm, methodTypeOf]

/-- Witness for C3: a pointer receiver to a Named type with method N of
signature func() int and field N of type string resolves to the bound
method typed func() int. -/
theorem C3_member_precedence_witness :
    memberInCB.MemberVal "N" = .ok memberOutCB ∧
    structFieldType [("N", Ty.basicT "string")] "N" = some (.basicT "string") := by
  have h := C3_member_precedence memberInCB "N" ⟨.ident "v", some (.pointerT recvTy)⟩
      (.pointerT recvTy) "T" [("N", .signatureT true [] [.basicT "int"] false)]
      [("N", .basicT "string")] true [] [.basicT "int"] false (.basicT "string")
      rfl rfl rfl rfl rfl
  exact ⟨h.trans (by rfl), rfl⟩

/-- C6 counterexample: MapLit with arity 0 and no explicit type produces an
operand whose type is map[string]interface{}: its key type is string,
which differs from the empty-interface key type the claim states. -/
theorem C6_counterexample :
    (testCB []).MapLit none 0 =
      .ok (testCB [⟨.compositeLit (.mapT (.basicT "string") .emptyInterfaceT) [],
                    some (.mapT (.basicT "string") .emptyInterfaceT)⟩]) ∧
    ((Ty.mapT (.basicT "string") .emptyInterfaceT) ==
      (Ty.mapT .emptyInterfaceT .emptyInterfaceT)) = false ∧
    Ty.basicT "string" ≠ Ty.emptyInterfaceT := by
  refine ⟨rfl, rfl, fun h => Ty.noConfusion h⟩

/-- C6 amended: MapLit invoked with arity 0 and no explicit type produces
one composite-literal operand whose type is a map with string key type and
empty-interface value type, without consuming any stack operands. -/
theorem C6_maplit_default (p : CodeBuilder) :
    p.MapLit none 0 =
      .ok { p with
            stk := Stack.push p.stk
              ⟨.compositeLit (.mapT (.basicT "string") .emptyInterfaceT) [],
               some (.mapT (.basicT "string") .emptyInterfaceT)⟩ } := rfl

theorem lookup_append (es : List (String × Ty)) (n : String) (t : Ty) (name : String) :
    (es ++ [(n, t)]).lookup name =
      match es.lookup name with
      | some x => some x
      | none => if name == n then some t else none := by
  induction es with
  | nil =>
    by_cases h : name = n
    · subst h
      simp [List.lookup]
    · have hb : (name == n) = false := by simp [h]
      simp [List.lookup, hb, h]
  | cons e es ih =>
    obtain ⟨k, v⟩ := e
    by_cases hk : name = k
    · subst hk
      simp [List.lookup]
    · have hb : (name == k) = false := by simp [hk]
      simp [List.lookup, hb, ih]

theorem lookup_insert (sc : Scope) (n : String) (t : Ty) (name : String) :
    (sc.insert n t).lookup name =
      match sc.lookup name with
      | some x => some x
      | none => if name == n then some t else none := by
  obtain ⟨par, es⟩ := sc
  simp only [Scope.insert]
  split
  next hp =>
    cases hn : List.lookup name es with
    | some x => simp [Scope.lookup, Scope.entries, hn]
    | none =>
      have hne : ¬ name = n := by
        intro he
        rw [← he, hn] at hp
        simp at hp
      simp [Scope.lookup, Scope.entries, hn, hne]
  next hp =>
    show (Scope.mk par (es ++ [(n, t)])).lookup name = _
    simp only [Scope.lookup, Scope.entries]
    exact lookup_append es n t name

theorem lookup_insertParams (vs : List GoVar) (sc : Scope) (name : String) :
    (insertParams sc vs).lookup name =
      match sc.lookup name with
      | some t => some t
      | none => if name == "" then none else firstVar vs name := by
  induction vs generalizing sc with
  | nil =>
    cases h : sc.lookup name <;> simp [insertParams, h, firstVar]
  | cons v vs ih =>
    rw [show insertParams sc (v :: vs) =
          insertParams (if v.name != "" then sc.insert v.name v.typ else sc) vs from rfl, ih]
    by_cases hv : v.name = ""
    · rw [if_neg (by simp [hv])]
      cases h : sc.lookup name with
      | some x => simp [h]
      | none =>
        by_cases hn : name = ""
        · simp [h, hn]
        · simp [h, hn, firstVar, hv, Ne.symm hn]
    · rw [if_pos (by simp [hv]), lookup_insert]
      cases h : sc.lookup name with
      | some x => simp [h]
      | none =>
        by_cases hnv : name = v.name
        · subst hnv
          simp [h, hv, firstVar]
        · by_cases hn : name = ""
          · simp [h, hn, hnv, firstVar,
                  show ¬("" = v.name) from fun he => hnv (hn.trans he)]
          · simp [h, hn, hnv, Ne.symm hnv, firstVar]

theorem insertParams_append (sc : Scope) (a b : List GoVar) :
    insertParams (insertParams sc a) b = insertParams sc (a ++ b) := by
  simp [insertParams, List.foldl_append]

theorem parentOf_insert (sc : Scope) (n : String) (t : Ty) :
    (sc.insert n t).parentOf = sc.parentOf := by
  obtain ⟨par, es⟩ := sc
  simp only [Scope.insert]
  split <;> rfl

theorem parentOf_insertParams (vs : List GoVar) (sc : Scope) :
    (insertParams sc vs).parentOf = sc.parentOf := by
  induction vs generalizing sc with
  | nil => rfl
  | cons v vs ih =>
    rw [show insertParams sc (v :: vs) =
          insertParams (if v.name != "" then sc.insert v.name v.typ else sc) vs from rfl, ih]
    split
    · exact parentOf_insert sc v.name v.typ
    · rfl

/-- C9: startFuncBody opens a fresh child scope of the current scope and
inserts into it exactly the declared parameters and results that have a
non-empty name (first occurrence wins): looking a non-empty name up in the
new scope finds exactly the first parameter or result of that name, and
the empty name is never resolvable. -/
theorem C9_func_body_scope (p : CodeBuilder) (fn : Func) :
    ((p.startFuncBody fn).1.current.blk.scope).parentOf = some p.current.blk.scope ∧
    ∀ name, ((p.startFuncBody fn).1.current.blk.scope).lookup name =
      if name == "" then none else firstVar (fn.sig.params ++ fn.sig.results) name := by
  constructor
  · show (insertParams (insertParams (Scope.mk (some p.current.blk.scope) [])
        fn.sig.params) fn.sig.results).parentOf = _
    rw [parentOf_insertParams, parentOf_insertParams]
    rfl
  · intro name
    show (insertParams (insertParams (Scope.mk (some p.current.blk.scope) [])
        fn.sig.params) fn.sig.results).lookup name = _
    rw [insertParams_append, lookup_insertParams]
    simp [Scope.lookup, Scope.entries, List.lookup]

mutual

theorem Ty.beq_refl : ∀ t : Ty, Ty.beq t t = true
  | .basicT a => by show (a == a) = true; simp
  | .untypedT a => by show (a == a) = true; simp
  | .emptyInterfaceT => rfl
  | .mapT k e => by
      show (Ty.beq k k && Ty.beq e e) = true
      rw [Ty.beq_refl k, Ty.beq_refl e]
      rfl
  | .sliceT e => by
      show Ty.beq e e = true
      exact Ty.beq_refl e
  | .arrayT e n => by
      show (Ty.beq e e && (n == n)) = true
      rw [Ty.beq_refl e]
      simp
  | .structT fs => by
      show Ty.beq.beqFields fs fs = true
      exact beqFields_refl fs
  | .namedT n m u => by
      show ((n == n) && Ty.beq.beqFields m m && Ty.beq u u) = true
      rw [beqFields_refl m, Ty.beq_refl u]
      simp
  | .signatureT r ps rs v => by
      show ((r == r) && Ty.beq.beqList ps ps && Ty.beq.beqList rs rs && (v == v)) = true
      rw [beqList_refl ps, beqList_refl rs]
      simp
  | .tupleT l => by
      show Ty.beq.beqList l l = true
      exact beqList_refl l
  | .pointerT e => by
      show Ty.beq e e = true
      exact Ty.beq_refl e
  | .refT e => by
      show Ty.beq e e = true
      exact Ty.beq_refl e

theorem beqList_refl : ∀ l : List Ty, Ty.beq.beqList l l = true
  | [] => rfl
  | a :: as => by
      show (Ty.beq a a && Ty.beq.beqList as as) = true
      rw [Ty.beq_refl a, beqList_refl as]
      rfl

theorem beqFields_refl : ∀ l : List (String × Ty), Ty.beq.beqFields l l = true
  | [] => rfl
  | (n, t) :: as => by
      show ((n == n) && Ty.beq t t && Ty.beq.beqFields as as) = true
      rw [Ty.beq_refl t, beqFields_refl as]
      simp

end

theorem boundElementType_all_same {args : List Elem} {T : Ty}
    (hne : args ≠ []) (hall : ∀ e ∈ args, e.typ = some T) :
    boundElementType args = .ok T := by
  cases args with
  | nil => exact absurd rfl hne
  | cons e0 rest =>
    have h0 : e0.typ = some T := hall e0 (by simp)
    have hcond : (e0 :: rest).all (fun e => e.typ == some T) = true := by
      rw [List.all_eq_true]
      intro e he
      rw [hall e he]
      show Ty.beq T T = true
      exact Ty.beq_refl T
    simp only [boundElementType, List.head?, h0]
    rw [if_pos hcond]

theorem sliceLit_same_types {p : CodeBuilder} {n : Nat} {args : List Elem} {T : Ty}
    (hga : Stack.getArgs p.stk n = .ok args) (hn : 0 < n)
    (hall : ∀ e ∈ args, e.typ = some T) :
    p.SliceLit none n false =
      .ok { p with
            stk := Stack.ret p.stk n
              ⟨.compositeLit (.sliceT (defaultType T)) (args.map Elem.val),
               some (.sliceT (defaultType T))⟩ } := by
  have hargsne : args ≠ [] := by
    have hl := getArgs_length hga
    intro hc
    rw [hc] at hl
    simp at hl
    omega
  have hbound := boundElementType_all_same hargsne hall
  unfold CodeBuilder.SliceLit
  rw [if_neg (by simp : ¬(false = true)), if_neg (by omega : ¬(n = 0)), hga]
  simp only [hbound]

/-- C5: SliceLit with no explicit type and positive arity infers the
element type as the bound type over the supplied operands: identical
operand types yield a slice of the default-typed version of that type;
differing but all-untyped constant operands are joined by the Oracle rule
and default-typed (untyped int constants with an untyped float constant
yield a slice of float64); incompatible element types (int and string)
fail with MismatchedElementTypes. -/
theorem C5_slicelit_inference :
    (∀ (p : CodeBuilder) (n : Nat) (args : List Elem) (T : Ty),
       Stack.getArgs p.stk n = .ok args → 0 < n → (∀ e ∈ args, e.typ = some T) →
       p.SliceLit none n false =
         .ok { p with
               stk := Stack.ret p.stk n
                 ⟨.compositeLit (.sliceT (defaultType T)) (args.map Elem.val),
                  some (.sliceT (defaultType T))⟩ }) ∧
    (testCB sliceMixStk).SliceLit none 3 false =
      .ok (testCB [⟨.compositeLit (.sliceT (.basicT "float64"))
                      [.ident "a", .ident "b", .ident "c"],
                    some (.sliceT (.basicT "float64"))⟩]) ∧
    (testCB sliceBadStk).SliceLit none 2 false = .error "TODO: MismatchedElementTypes" :=
  ⟨fun _ _ _ _ hga hn hall => sliceLit_same_types hga hn hall, rfl, rfl⟩

/-- Witness for C5: three identically typed int operands yield a slice of
int (the default type of int is int itself). -/
theorem C5_slicelit_inference_witness :
    (testCB sliceIntStk).SliceLit none 3 false =
      .ok (testCB [⟨.compositeLit (.sliceT (.basicT "int"))
                      [.ident "i", .ident "j", .ident "k"],
                    some (.sliceT (.basicT "int"))⟩]) := by
  have h := C5_slicelit_inference.1 (testCB sliceIntStk) 3 sliceIntStk (.basicT "int")
      rfl (by omega)
      (by intro e he
          simp only [sliceIntStk, List.mem_cons, List.not_mem_nil, or_false] at he
          rcases he with he | he | he <;> simp [he])
  exact h.trans (by rfl)

theorem Assign_arity_mismatch {p : CodeBuilder} {lhs rhs : Nat} {args : List Elem}
    (hga : Stack.getArgs p.stk (lhs + rhs) = .ok args)
    (hne : lhs ≠ rhs) (hr1 : rhs ≠ 1) :
    p.Assign lhs (some rhs) = .error "TODO: unmatch assignment" := by
  simp only [CodeBuilder.Assign, Option.getD_some, hga]
  rw [if_neg hne, if_neg hr1]

theorem Assign_tuple_mismatch {p : CodeBuilder} {k : Nat} {args : List Elem} {src : Elem}
    (hga : Stack.getArgs p.stk (k + 1) = .ok args)
    (hk : k ≠ 1) (hsrc : args.get? k = some src)
    (hta : tupleArity src.typ ≠ some k) :
    p.Assign k (some 1) = .error "TODO: unmatch assignment" := by
  simp only [CodeBuilder.Assign, Option.getD_some, hga, hsrc]
  rw [if_neg hk, if_pos trivial]
  split
  next ts heq =>
    rw [heq] at hta
    simp only [tupleArity] at hta
    split
    · next hkl => exact absurd (congrArg some hkl.symm) hta
    · rfl
  next => rfl

theorem Assign_tuple_spread {p : CodeBuilder} {k : Nat} {args : List Elem} {src : Elem}
    {ts : List Ty}
    (hga : Stack.getArgs p.stk (k + 1) = .ok args)
    (hk : k ≠ 1) (hsrc : args.get? k = some src)
    (ht : src.typ = some (.tupleT ts)) (hlen : ts.length = k)
    (hchk : tupleAssignCheck (args.take k) ts = true) :
    p.Assign k (some 1) =
      .ok { p with
            stk := Stack.popN p.stk (k + 1),
            current := { p.current with blk := { p.current.blk with
              stmts := p.current.blk.stmts ++
                [Stmt.assign ((args.take k).map Elem.val) [src.val]] } } } := by
  simp only [CodeBuilder.Assign, Option.getD_some, hga, hsrc, ht]
  rw [if_neg hk, if_pos trivial, if_pos hlen.symm, if_pos hchk]

theorem Assign_tuple_spread_inv {p p' : CodeBuilder} {k : Nat}
    (hk : k ≠ 1) (h : p.Assign k (some 1) = .ok p') :
    ∃ args src ts, Stack.getArgs p.stk (k + 1) = .ok args ∧
      args.get? k = some src ∧ src.typ = some (.tupleT ts) ∧ ts.length = k ∧
      tupleAssignCheck (args.take k) ts = true := by
  simp only [CodeBuilder.Assign, Option.getD_some] at h
  repeat' split at h
  all_goals first
    | exact Except.noConfusion h
    | exact absurd (by assumption) hk
    | exact absurd trivial (by assumption)
    | (rename_i xa args hga hk1 htr xo src hsrc xt ts ht hkl hchk
       exact ⟨args, src, ts, hga, hsrc, ht, hkl.symm, hchk⟩)

/-- C4: Assign with a single source and lhs targets succeeds exactly when
the source operand's type is a Tuple of arity exactly lhs whose elements
are assignable to the corresponding targets; it then emits one assignment
statement with lhs left-hand expressions and one right-hand expression and
consumes the lhs+1 operands.  A single source that is not a Tuple of that
arity fails with the arity-mismatch error, as does every combination with
lhsCount different from rhsCount and rhsCount different from 1. -/
theorem C4_tuple_spread_assign :
    (∀ (p : CodeBuilder) (lhs rhs : Nat) (args : List Elem),
       Stack.getArgs p.stk (lhs + rhs) = .ok args → lhs ≠ rhs → rhs ≠ 1 →
       p.Assign lhs (some rhs) = .error "TODO: unmatch assignment") ∧
    (∀ (p : CodeBuilder) (k : Nat) (args : List Elem) (src : Elem),
       Stack.getArgs p.stk (k + 1) = .ok args → k ≠ 1 → args.get? k = some src →
       tupleArity src.typ ≠ some k →
       p.Assign k (some 1) = .error "TODO: unmatch assignment") ∧
    (∀ (p : CodeBuilder) (k : Nat) (args : List Elem) (src : Elem) (ts : List Ty),
       Stack.getArgs p.stk (k + 1) = .ok args → k ≠ 1 → args.get? k = some src →
       src.typ = some (.tupleT ts) → ts.length = k →
       tupleAssignCheck (args.take k) ts = true →
       p.Assign k (some 1) =
         .ok { p with
               stk := Stack.popN p.stk (k + 1),
               current := { p.current with blk := { p.current.blk with
                 stmts := p.current.blk.stmts ++
                   [Stmt.assign ((args.take k).map Elem.val) [src.val]] } } } ∧
       ((args.take k).map Elem.val).length = k ∧ ([src.val] : List Expr).length = 1) ∧
    (∀ (p p' : CodeBuilder) (k : Nat), k ≠ 1 → p.Assign k (some 1) = .ok p' →
       ∃ args src ts, Stack.getArgs p.stk (k + 1) = .ok args ∧
         args.get? k = some src ∧ src.typ = some (.tupleT ts) ∧ ts.length = k ∧
         tupleAssignCheck (args.take k) ts = true) := by
  refine ⟨fun p lhs rhs args hga hne hr1 => Assign_arity_mismatch hga hne hr1,
          fun p k args src hga hk hsrc hta => Assign_tuple_mismatch hga hk hsrc hta,
          fun p k args src ts hga hk hsrc ht hlen hchk =>
            ⟨Assign_tuple_spread hga hk hsrc ht hlen hchk, ?_, rfl⟩,
          fun p p' k hk h => Assign_tuple_spread_inv hk h⟩
  have hl := getArgs_length hga
  simp [List.length_take]
  omega

/-- Witness for C4: a, b = f() with f returning (int, string) succeeds,
emitting two targets and one right-hand call expression; a, b = g() with g
returning a single value fails with the arity mismatch. -/
theorem C4_tuple_spread_assign_witness :
    (testCB tupleSpreadStk).Assign 2 (some 1) = .ok assignOutCB ∧
    (testCB singleSpreadStk).Assign 2 (some 1) = .error "TODO: unmatch assignment" := by
  constructor
  · have h := (C4_tuple_spread_assign.2.2.1 (testCB tupleSpreadStk) 2 tupleSpreadStk
        ⟨.callE (.ident "f") [] false, some (.tupleT [.basicT "int", .basicT "string"])⟩
        [.basicT "int", .basicT "string"] rfl (by omega) rfl rfl rfl rfl).1
    exact h.trans (by rfl)
  · exact C4_tuple_spread_assign.2.1 (testCB singleSpreadStk) 2 singleSpreadStk
      ⟨.callE (.ident "g") [] false, some (.basicT "int")⟩ rfl (by omega) rfl
      (fun h => Option.noConfusion h)

end Gox
